import Mathlib

/-!
# Interactive edge previewer: `opencv/helloworld.cpp`

A shallow embedding of the two functions of the program, `onTrackbar` and `main`,
together with the global variables they share (`edgeThresh`, `image`, `gray`, `edge`,
`cedge`).

The program is glue around the OpenCV library.  Library calls are embedded as follows.

* Matrix bookkeeping whose behaviour decides the properties below is defined outright,
  following the library documentation: `Mat::empty`, `Mat::size`, `Mat::create`,
  `Mat::operator=(const Scalar&)` and the two forms of `Mat::copyTo`.
* The image algorithms (`imread`, `cvtColor`, `blur`, `Canny`) are parameters, collected
  in `Env`.  Only their documented header contract is fixed (size and type of the output);
  the pixel values they compute are left arbitrary.
* The window system (`namedWindow`, `createTrackbar`, `imshow`, `waitKey`) is a log of the
  calls made plus the list of registered trackbars; what the user does while the program
  waits is an explicit list of `Input`s.

Every library call is appended to `State.trace`, in program order.  Library calls are
taken to succeed (the specification does the same for an image that decoded), and the
buffers `image`, `gray`, `edge`, `cedge` never share storage: each is allocated by its own
call, so value semantics for `Mat` is exact for this program.
-/

namespace Edge

/-! ## Matrices -/

/-- Element type of a matrix: bit depth of one channel and the number of channels
(the information carried by `Mat::type()`). -/
structure MatType where
  depth : Nat
  channels : Nat
  deriving DecidableEq, Repr

/-- The type `CV_8UC1`: 8-bit, one channel; also the type of a default-constructed `Mat`. -/
def CV_8UC1 : MatType := ⟨8, 1⟩

/-- The type `CV_8UC3`: 8-bit, three channels. -/
def CV_8UC3 : MatType := ⟨8, 3⟩

/-- The colour conversion code `CV_BGR2GRAY`. -/
def CV_BGR2GRAY : Int := 6

/-- The class `cv::Size`. -/
structure Size where
  width : Nat
  height : Nat
  deriving DecidableEq, Repr

/-- The class `cv::Mat`, two-dimensional: header (`rows`, `cols`, `type`) and the pixel
values, read as `data row col channel`.  Values at positions outside the header's range
carry no meaning. -/
structure Mat where
  rows : Nat
  cols : Nat
  type : MatType
  data : Nat → Nat → Nat → Nat

/-- The class `cv::Scalar`: one value per channel. -/
def Scalar : Type := Nat → Nat

/-- The function `Scalar::all(v)`. -/
def Scalar.all (v : Nat) : Scalar := fun _ => v

namespace Mat

/-- A default-constructed `Mat()`: no rows, no columns, no data. -/
def default : Mat := ⟨0, 0, CV_8UC1, fun _ _ _ => 0⟩

/-- The method `Mat::empty()`: true when the matrix has no elements. -/
def empty (m : Mat) : Bool := m.rows == 0 || m.cols == 0

/-- The method `Mat::size()`, which is `Size(cols, rows)`. -/
def size (m : Mat) : Size := ⟨m.cols, m.rows⟩

/-- Whether a matrix already has the given size and type. -/
def hasShape (m : Mat) (sz : Size) (ty : MatType) : Bool :=
  m.rows == sz.height && m.cols == sz.width && m.type == ty

/-- The method `Mat::create(size, type)`: returns at once when the matrix already has this
size and type; otherwise allocates a new buffer, whose content `fresh` is whatever the
allocator hands out. -/
def create (m : Mat) (sz : Size) (ty : MatType) (fresh : Nat → Nat → Nat → Nat) : Mat :=
  if m.hasShape sz ty then m else ⟨sz.height, sz.width, ty, fresh⟩

/-- The operator `Mat::operator=(const Scalar&)`: sets every element to the scalar; the
header is not touched. -/
def assign (m : Mat) (s : Scalar) : Mat :=
  { m with data := fun _ _ ch => s ch }

/-- The method `Mat::copyTo(dst)`: `dst` gets the size, the type and every pixel of the
source. -/
def copyTo (src _dst : Mat) : Mat :=
  { rows := src.rows, cols := src.cols, type := src.type, data := src.data }

/-- The method `Mat::copyTo(dst, mask)`.  Without a mask it is the plain copy.  Otherwise
`dst.create(size(), type())` runs first, and a buffer it had to reallocate is initialised
with zeros; then exactly the elements whose mask element is non-zero are copied.  A mask
has one channel, or one channel per channel of the source. -/
def copyToMask (src dst mask : Mat) : Mat :=
  if mask.empty then src.copyTo dst
  else
    let d : Mat := if dst.hasShape src.size src.type then dst
                   else { rows := src.rows, cols := src.cols, type := src.type,
                          data := fun _ _ _ => 0 }
    { d with data := fun r c ch =>
        if mask.data r c (if mask.type.channels = 1 then 0 else ch) ≠ 0 then src.data r c ch
        else d.data r c ch }

end Mat

/-! ## The library and the outside world -/

/-- What the program takes from outside: the image decoder applied to the file system, the
pixel computations of the three image algorithms, and the content of freshly allocated
memory. -/
structure Env where
  /-- The call `imread(filename, flags)`: result, an empty matrix when the file cannot be
  read or decoded. -/
  imread : String → Int → Mat
  /-- Pixel `(row, col)` of `cvtColor(src, dst, code)`. -/
  cvtColorData : Mat → Int → Nat → Nat → Nat
  /-- Pixel `(row, col, channel)` of `blur(src, dst, ksize)`. -/
  blurData : Mat → Size → Nat → Nat → Nat → Nat
  /-- Whether `Canny(image, edges, threshold1, threshold2, apertureSize)` marks pixel
  `(row, col)` as an edge. -/
  cannyEdge : Mat → Int → Int → Int → Nat → Nat → Bool
  /-- Content of memory handed out by `Mat::create`. -/
  fresh : Nat → Nat → Nat → Nat

/-- The call `cvtColor(src, dst, code)` for a colour-to-gray code: the output has the size
and depth of the source and one channel. -/
def cvtColor (env : Env) (src : Mat) (code : Int) : Mat :=
  { rows := src.rows, cols := src.cols, type := ⟨src.type.depth, 1⟩,
    data := fun r c _ => env.cvtColorData src code r c }

/-- The call `blur(src, dst, ksize)`: the output has the size and type of the source. -/
def blur (env : Env) (src : Mat) (ksize : Size) : Mat :=
  { rows := src.rows, cols := src.cols, type := src.type,
    data := env.blurData src ksize }

/-- The call `Canny(image, edges, threshold1, threshold2, apertureSize)`: the output is a
single-channel 8-bit map of the size of the input, 255 on edges and 0 elsewhere.  The
thresholds are `double` parameters; the `int` arguments of the program convert exactly. -/
def Canny (env : Env) (src : Mat) (threshold1 threshold2 apertureSize : Int) : Mat :=
  { rows := src.rows, cols := src.cols, type := CV_8UC1,
    data := fun r c _ => if env.cannyEdge src threshold1 threshold2 apertureSize r c then 255 else 0 }

/-- Callbacks a trackbar can be bound to; the program has one. -/
inductive Callback where
  | onTrackbar
  deriving DecidableEq, Repr

/-- A trackbar registered with the window system.  Its value pointer is `&edgeThresh`, the
only `int` variable of the program. -/
structure Trackbar where
  trackbarname : String
  winname : String
  count : Int
  onChange : Callback
  deriving DecidableEq, Repr

/-- One library call, with its arguments. -/
inductive Event where
  | imread (filename : String) (flags : Int)
  | cout (line : String)
  | create (sz : Size) (ty : MatType)
  | cvtColor (code : Int)
  | namedWindow (winname : String) (flags : Int)
  | createTrackbar (trackbarname winname : String) (value count : Int) (onChange : Callback)
  | blur (ksize : Size)
  | Canny (threshold1 threshold2 apertureSize : Int)
  | assign (v : Nat)
  | copyTo
  | imshow (winname : String) (mat : Mat)
  | waitKey (delay : Int)

namespace Event

/-- Recognises a call that creates a window. -/
def isNamedWindow : Event → Bool
  | namedWindow _ _ => true
  | _ => false

/-- Recognises a call that registers a trackbar. -/
def isCreateTrackbar : Event → Bool
  | createTrackbar _ _ _ _ _ => true
  | _ => false

/-- Recognises a call of the edge detector. -/
def isCanny : Event → Bool
  | Canny _ _ _ => true
  | _ => false

/-- Recognises a call of the key wait. -/
def isWaitKey : Event → Bool
  | waitKey _ => true
  | _ => false

/-- Recognises a call of the image decoder. -/
def isImread : Event → Bool
  | imread _ _ => true
  | _ => false

/-- Recognises a call of the colour conversion. -/
def isCvtColor : Event → Bool
  | cvtColor _ => true
  | _ => false

end Event

/-- What the user does while the program waits. -/
inductive Input where
  /-- The slider is dragged to a position. -/
  | slide (pos : Nat)
  /-- A key is pressed. -/
  | key (code : Int)
  deriving DecidableEq, Repr

/-! ## The program -/

/-- The global variables of the program (lines 16–17), the trackbars the window system
holds, and the log of library calls. -/
structure State where
  edgeThresh : Int
  image : Mat
  gray : Mat
  edge : Mat
  cedge : Mat
  trackbars : List Trackbar
  trace : List Event

/-- The globals as initialised at lines 16–17: `edgeThresh = 1`, four empty matrices. -/
def State.initial : State :=
  { edgeThresh := 1, image := Mat.default, gray := Mat.default, edge := Mat.default,
    cedge := Mat.default, trackbars := [], trace := [] }

/-- Appends one library call to the log. -/
def State.log (s : State) (e : Event) : State :=
  { s with trace := s.trace ++ [e] }

/-- A value of C++ type `int` (32-bit two's complement) from a mathematical integer. -/
def wrapInt32 (x : Int) : Int := (x + 2 ^ 31) % 2 ^ 32 - 2 ^ 31

/-- The callback `onTrackbar(int, void*)`, lines 20–30.  The position argument is unnamed
in the source and unused; the threshold is read from the global `edgeThresh`. -/
def onTrackbar (env : Env) (_pos : Int) (s : State) : State :=
  -- blur(gray, edge, Size(3,3));
  let s := { s with edge := blur env s.gray ⟨3, 3⟩ }.log (Event.blur ⟨3, 3⟩)
  -- Canny(edge, edge, edgeThresh, edgeThresh*3, 3);
  let high := wrapInt32 (s.edgeThresh * 3)
  let s := { s with edge := Canny env s.edge s.edgeThresh high 3 }.log
    (Event.Canny s.edgeThresh high 3)
  -- cedge = Scalar::all(0);
  let s := { s with cedge := s.cedge.assign (Scalar.all 0) }.log (Event.assign 0)
  -- image.copyTo(cedge, edge);
  let s := { s with cedge := s.image.copyToMask s.cedge s.edge }.log Event.copyTo
  -- imshow("Edge map", cedge);
  s.log (Event.imshow "Edge map" s.cedge)

/-- Runs the function a callback identifier stands for. -/
def runCallback (env : Env) : Callback → Int → State → State
  | Callback.onTrackbar => onTrackbar env

/-- The window system reacting to a slider move: for a position inside the range of the
registered trackbar it stores the position through the value pointer (`edgeThresh`) and
calls the callback with it.  A slider has no position outside its range. -/
def sliderMoved (env : Env) (s : State) (pos : Nat) : State :=
  match s.trackbars with
  | [] => s
  | tb :: _ =>
    if (pos : Int) ≤ tb.count then
      runCallback env tb.onChange pos { s with edgeThresh := pos }
    else s

/-- The call `waitKey(0)` after it has been entered: it serves slider moves until a key is
pressed and returns the key.  With no key press it never returns (`none`). -/
def waitLoop (env : Env) (s : State) : List Input → Option (Int × State)
  | [] => none
  | Input.key code :: _ => some (code, s)
  | Input.slide pos :: rest => waitLoop env (sliderMoved env s pos) rest

/-- The call `waitKey(delay)` with `delay = 0`, wait without time limit. -/
def waitKey (env : Env) (delay : Int) (s : State) (inputs : List Input) :
    Option (Int × State) :=
  waitLoop env (s.log (Event.waitKey delay)) inputs

/-- The call `namedWindow(winname, flags)`. -/
def namedWindow (winname : String) (flags : Int) (s : State) : State :=
  s.log (Event.namedWindow winname flags)

/-- The call `createTrackbar(trackbarname, winname, &edgeThresh, count, onChange)`: the
slider starts at the current value of `edgeThresh`. -/
def createTrackbar (trackbarname winname : String) (count : Int) (onChange : Callback)
    (s : State) : State :=
  { s with trackbars := s.trackbars ++ [Trackbar.mk trackbarname winname count onChange] }.log
    (Event.createTrackbar trackbarname winname s.edgeThresh count onChange)

/-- Line 34 of `main`: the file to decode; `argc` is the length of `argv`. -/
def filename (argv : List String) : String :=
  if argv.length = 2 then argv.getD 1 "" else "fruits.jpg"

/-- Lines 34–36 of `main`: choose the file and decode it. -/
def mainLoad (env : Env) (argv : List String) : State :=
  -- image = imread(filename, 1);
  { State.initial with image := env.imread (filename argv) 1 }.log
    (Event.imread (filename argv) 1)

/-- Line 43 of `main`: `cedge.create(image.size(), image.type())`. -/
def mainCreate (env : Env) (s : State) : State :=
  { s with cedge := s.cedge.create s.image.size s.image.type env.fresh }.log
    (Event.create s.image.size s.image.type)

/-- Lines 43–50 of `main`: composite buffer, grayscale image, window, trackbar. -/
def mainSetup (env : Env) (s : State) : State :=
  -- cedge.create(image.size(), image.type());
  let s := mainCreate env s
  -- cvtColor(image, gray, CV_BGR2GRAY);
  let s := { s with gray := cvtColor env s.image CV_BGR2GRAY }.log (Event.cvtColor CV_BGR2GRAY)
  -- namedWindow("Edge map", 1);
  let s := namedWindow "Edge map" 1 s
  -- createTrackbar("Canny threshold", "Edge map", &edgeThresh, 100, onTrackbar);
  createTrackbar "Canny threshold" "Edge map" 100 Callback.onTrackbar s

/-- The function `main`, lines 32–59: the return code and the final state, or `none` when
the program waits for a key for ever. -/
def main (env : Env) (argv : List String) (inputs : List Input) : Option (Int × State) :=
  let s := mainLoad env argv
  if s.image.empty then
    -- cout << "Usage: edge <image_name>" << endl; return -1;
    some (-1, s.log (Event.cout "Usage: edge <image_name>"))
  else
    let s := mainSetup env s
    -- onTrackbar(0, 0);
    let s := onTrackbar env 0 s
    -- waitKey(0); return 0;
    match waitKey env 0 s inputs with
    | none => none
    | some (_, s) => some (0, s)

/-! ## Notions used to state the properties -/

/-- Two matrices have the same number of rows, columns and the same element type. -/
def Mat.sameShape (a b : Mat) : Prop :=
  a.rows = b.rows ∧ a.cols = b.cols ∧ a.type = b.type

/-- The composite as the specification words it: the source pixel where the edge mask is
set, black elsewhere. -/
def composite (image mask : Mat) : Mat :=
  { rows := image.rows, cols := image.cols, type := image.type,
    data := fun r c ch => if mask.data r c 0 ≠ 0 then image.data r c ch else 0 }

/-- Recognises the calls made by the body of `onTrackbar`. -/
def Event.inCallback : Event → Bool
  | Event.blur _ => true
  | Event.Canny _ _ _ => true
  | Event.assign _ => true
  | Event.copyTo => true
  | Event.imshow _ _ => true
  | _ => false

/-- The calls `main` makes before it enters the key wait, for a file that decodes to
`image`. -/
def startupTrace (file : String) (image composite0 : Mat) : List Event :=
  [Event.imread file 1, Event.create image.size image.type, Event.cvtColor CV_BGR2GRAY,
   Event.namedWindow "Edge map" 1,
   Event.createTrackbar "Canny threshold" "Edge map" 1 100 Callback.onTrackbar,
   Event.blur ⟨3, 3⟩, Event.Canny 1 3 3, Event.assign 0, Event.copyTo,
   Event.imshow "Edge map" composite0, Event.waitKey 0]

/-- The edge map as the specification words it: the blurred grayscale image passed through
the detector with low threshold `t`, high threshold three times `t` and aperture 3. -/
def edgeMap (env : Env) (gray : Mat) (t : Int) : Mat :=
  Canny env (blur env gray ⟨3, 3⟩) t (3 * t) 3

/-- The calls of one recompute at threshold `t`, ending with the display of the composite. -/
def callbackTrace (env : Env) (image gray : Mat) (t : Int) : List Event :=
  [Event.blur ⟨3, 3⟩, Event.Canny t (3 * t) 3, Event.assign 0, Event.copyTo,
   Event.imshow "Edge map" (composite image (edgeMap env gray t))]

/-- The calls caused by the slider moves served before the first key press, for a trackbar
of range `0..count`. -/
def sliderTrace (env : Env) (image gray : Mat) (count : Int) : List Input → List Event
  | [] => []
  | Input.key _ :: _ => []
  | Input.slide pos :: rest =>
    (if (pos : Int) ≤ count then callbackTrace env image gray pos else [])
      ++ sliderTrace env image gray count rest

/-- The threshold left in `edgeThresh` by the slider moves served before the first key
press, starting from `t0`. -/
def lastThresh (count : Int) (t0 : Int) : List Input → Int
  | [] => t0
  | Input.key _ :: _ => t0
  | Input.slide pos :: rest =>
    lastThresh count (if (pos : Int) ≤ count then pos else t0) rest

/-- The trackbar `main` registers at line 50. -/
def theTrackbar : Trackbar :=
  Trackbar.mk "Canny threshold" "Edge map" 100 Callback.onTrackbar

/-- The state of a running previewer: the trackbar of line 50 is the registered one, the
grayscale image has pixels, the threshold is in the slider range, and the two working
buffers hold the result of the last recompute. -/
structure Running (env : Env) (s : State) : Prop where
  trackbars : s.trackbars = [theTrackbar]
  gray : s.gray.empty = false
  lo : 0 ≤ s.edgeThresh
  hi : s.edgeThresh ≤ 100
  edge : s.edge = edgeMap env s.gray s.edgeThresh
  cedge : s.cedge = composite s.image s.edge

/-! ## A concrete environment, to run the definitions -/

/-- A colour image of two rows and two columns. -/
def sampleImage : Mat := ⟨2, 2, CV_8UC3, fun r c ch => 40 * r + 20 * c + ch⟩

/-- An environment in which only the file `a.png` decodes; gray conversion keeps the first
channel, the blur is the identity and a pixel is an edge when it exceeds the low
threshold. -/
def sampleEnv : Env :=
  { imread := fun name _ => if name = "a.png" then sampleImage else Mat.default
    cvtColorData := fun src _ r c => src.data r c 0
    blurData := fun src _ r c ch => src.data r c ch
    cannyEdge := fun src t1 _ _ r c => decide (t1 < (src.data r c 0 : Int))
    fresh := fun _ _ _ => 7 }

/-- A state of the running program over `sampleImage`, with stale buffers. -/
def sampleState : State :=
  { edgeThresh := 1
    image := sampleImage
    gray := cvtColor sampleEnv sampleImage CV_BGR2GRAY
    edge := ⟨2, 2, CV_8UC1, fun _ _ _ => 255⟩
    cedge := ⟨2, 2, CV_8UC3, fun _ _ _ => 9⟩
    trackbars := [Trackbar.mk "Canny threshold" "Edge map" 100 Callback.onTrackbar]
    trace := [] }

/-! ## Properties -/

/-! ### Facts about the callback -/

theorem onTrackbar_edge (env : Env) (pos : Int) (s : State) :
    (onTrackbar env pos s).edge
      = Canny env (blur env s.gray ⟨3, 3⟩) s.edgeThresh (wrapInt32 (s.edgeThresh * 3)) 3 := rfl

theorem onTrackbar_cedge (env : Env) (pos : Int) (s : State) :
    (onTrackbar env pos s).cedge
      = s.image.copyToMask (s.cedge.assign (Scalar.all 0)) (onTrackbar env pos s).edge := rfl

theorem onTrackbar_trace (env : Env) (pos : Int) (s : State) :
    (onTrackbar env pos s).trace
      = s.trace ++ [Event.blur ⟨3, 3⟩,
          Event.Canny s.edgeThresh (wrapInt32 (s.edgeThresh * 3)) 3,
          Event.assign 0, Event.copyTo,
          Event.imshow "Edge map" (onTrackbar env pos s).cedge] := by
  simp [onTrackbar, State.log]

theorem wrapInt32_of_range (x : Int) (lo : -(2 ^ 31) ≤ x) (hi : x < 2 ^ 31) :
    wrapInt32 x = x := by
  unfold wrapInt32
  have h : (x + 2 ^ 31) % 2 ^ 32 = x + 2 ^ 31 := by
    apply Int.emod_eq_of_lt <;> omega
  omega

theorem wrapInt32_triple (t : Int) (h0 : 0 ≤ t) (h100 : t ≤ 100) :
    wrapInt32 (t * 3) = 3 * t := by
  rw [wrapInt32_of_range] <;> omega

/-! ### Facts about the masked copy -/

theorem copyToMask_sameShape (src dst mask : Mat) :
    (src.copyToMask dst mask).sameShape src := by
  unfold Mat.copyToMask Mat.sameShape
  by_cases hm : mask.empty = true
  · simp [hm, Mat.copyTo]
  · by_cases hs : dst.hasShape src.size src.type = true
    · have hs2 := hs
      simp only [Mat.hasShape, Mat.size, Bool.and_eq_true, beq_iff_eq] at hs2
      simp [hm, hs, hs2]
    · simp [hm, hs]

theorem copyToMask_assign_eq (src dst mask : Mat) (hm : mask.empty = false) :
    src.copyToMask (dst.assign (Scalar.all 0)) mask
      = { rows := src.rows, cols := src.cols, type := src.type,
          data := fun r c ch =>
            if mask.data r c (if mask.type.channels = 1 then 0 else ch) ≠ 0
            then src.data r c ch else 0 } := by
  unfold Mat.copyToMask
  by_cases hs : (dst.assign (Scalar.all 0)).hasShape src.size src.type = true
  · have hs2 := hs
    simp only [Mat.hasShape, Mat.size, Mat.assign, Bool.and_eq_true, beq_iff_eq] at hs2
    simp [hm, hs, hs2, Mat.assign, Scalar.all]
  · simp [hm, hs]

theorem onTrackbar_cedge_sameShape (env : Env) (pos : Int) (s : State) :
    (onTrackbar env pos s).cedge.sameShape s.image :=
  copyToMask_sameShape _ _ _

/-! ### Facts about the key wait -/

/-- A slider move either changes nothing or stores the position and runs `onTrackbar`. -/
theorem sliderMoved_cases (env : Env) (s : State) (pos : Nat) :
    sliderMoved env s pos = s
      ∨ sliderMoved env s pos = onTrackbar env pos { s with edgeThresh := pos } := by
  unfold sliderMoved
  cases htb : s.trackbars with
  | nil => exact Or.inl rfl
  | cons tb rest =>
    by_cases hle : (pos : Int) ≤ tb.count
    · right
      simp only [hle, if_true]
      cases h : tb.onChange
      rfl
    · left
      simp only [hle, if_false]

theorem sliderMoved_image (env : Env) (s : State) (pos : Nat) :
    (sliderMoved env s pos).image = s.image := by
  rcases sliderMoved_cases env s pos with h | h <;> (rw [h]; try rfl)

theorem sliderMoved_gray (env : Env) (s : State) (pos : Nat) :
    (sliderMoved env s pos).gray = s.gray := by
  rcases sliderMoved_cases env s pos with h | h <;> (rw [h]; try rfl)

theorem sliderMoved_trackbars (env : Env) (s : State) (pos : Nat) :
    (sliderMoved env s pos).trackbars = s.trackbars := by
  rcases sliderMoved_cases env s pos with h | h <;> (rw [h]; try rfl)

theorem sliderMoved_of_le (env : Env) (s : State) (pos : Nat) (tb : Trackbar)
    (rest : List Trackbar) (htb : s.trackbars = tb :: rest) (hle : (pos : Int) ≤ tb.count) :
    sliderMoved env s pos = onTrackbar env pos { s with edgeThresh := pos } := by
  unfold sliderMoved
  rw [htb]
  simp only [hle, if_true]
  cases h : tb.onChange
  rfl

theorem sliderMoved_of_gt (env : Env) (s : State) (pos : Nat) (tb : Trackbar)
    (rest : List Trackbar) (htb : s.trackbars = tb :: rest) (hgt : tb.count < (pos : Int)) :
    sliderMoved env s pos = s := by
  unfold sliderMoved
  rw [htb]
  simp only [not_le.mpr hgt, if_false]

/-- The wait returns exactly when some key is pressed. -/
theorem waitLoop_isSome (env : Env) :
    ∀ (inputs : List Input) (s : State),
      (waitLoop env s inputs).isSome = true ↔ ∃ code, Input.key code ∈ inputs := by
  intro inputs
  induction inputs with
  | nil => intro s; simp [waitLoop]
  | cons i rest ih =>
    intro s
    cases i with
    | key k =>
      simp only [waitLoop, Option.isSome_some, true_iff]
      exact ⟨k, List.mem_cons_self _ _⟩
    | slide pos =>
      simp only [waitLoop, ih, List.mem_cons, reduceCtorEq, false_or]

/-! ### One recompute, in closed form -/

theorem onTrackbar_edge_eq (env : Env) (pos : Int) (s : State)
    (h0 : 0 ≤ s.edgeThresh) (h100 : s.edgeThresh ≤ 100) :
    (onTrackbar env pos s).edge = edgeMap env s.gray s.edgeThresh := by
  rw [onTrackbar_edge, wrapInt32_triple _ h0 h100]
  rfl

theorem onTrackbar_edge_empty (env : Env) (pos : Int) (s : State) :
    (onTrackbar env pos s).edge.empty = s.gray.empty := rfl

theorem onTrackbar_cedge_eq (env : Env) (pos : Int) (s : State)
    (hg : s.gray.empty = false) :
    (onTrackbar env pos s).cedge = composite s.image (onTrackbar env pos s).edge := by
  rw [onTrackbar_cedge, copyToMask_assign_eq _ _ _ (by rw [onTrackbar_edge_empty]; exact hg)]
  simp [composite, onTrackbar_edge, Canny, CV_8UC1]

theorem onTrackbar_trace_eq (env : Env) (pos : Int) (s : State)
    (hg : s.gray.empty = false) (h0 : 0 ≤ s.edgeThresh) (h100 : s.edgeThresh ≤ 100) :
    (onTrackbar env pos s).trace
      = s.trace ++ callbackTrace env s.image s.gray s.edgeThresh := by
  rw [onTrackbar_trace, onTrackbar_cedge_eq env pos s hg, onTrackbar_edge_eq env pos s h0 h100,
    wrapInt32_triple _ h0 h100]
  rfl

theorem onTrackbar_running (env : Env) (pos : Int) (s : State)
    (htb : s.trackbars = [theTrackbar]) (hg : s.gray.empty = false)
    (h0 : 0 ≤ s.edgeThresh) (h100 : s.edgeThresh ≤ 100) :
    Running env (onTrackbar env pos s) :=
  { trackbars := htb
    gray := hg
    lo := h0
    hi := h100
    edge := onTrackbar_edge_eq env pos s h0 h100
    cedge := onTrackbar_cedge_eq env pos s hg }

theorem sliderMoved_running (env : Env) (s : State) (pos : Nat) (h : Running env s) :
    Running env (sliderMoved env s pos) := by
  by_cases hle : (pos : Int) ≤ 100
  · rw [sliderMoved_of_le env s pos theTrackbar [] h.trackbars hle]
    exact onTrackbar_running env pos _ h.trackbars h.gray (Int.natCast_nonneg pos) hle
  · rw [sliderMoved_of_gt env s pos theTrackbar [] h.trackbars (not_le.mp hle)]
    exact h

/-! ### The key wait and `main`, in closed form -/

theorem running_log (env : Env) (s : State) (e : Event) (h : Running env s) :
    Running env (s.log e) :=
  { trackbars := h.trackbars, gray := h.gray, lo := h.lo, hi := h.hi, edge := h.edge,
    cedge := h.cedge }

theorem sliderMoved_trace (env : Env) (s : State) (pos : Nat) (h : Running env s) :
    (sliderMoved env s pos).trace
      = s.trace ++ (if (pos : Int) ≤ 100 then callbackTrace env s.image s.gray pos else []) := by
  by_cases hle : (pos : Int) ≤ 100
  · rw [sliderMoved_of_le env s pos theTrackbar [] h.trackbars hle, if_pos hle]
    exact onTrackbar_trace_eq env pos _ h.gray (Int.natCast_nonneg pos) hle
  · rw [sliderMoved_of_gt env s pos theTrackbar [] h.trackbars (not_le.mp hle), if_neg hle]
    simp

theorem sliderMoved_edgeThresh (env : Env) (s : State) (pos : Nat) (h : Running env s) :
    (sliderMoved env s pos).edgeThresh = if (pos : Int) ≤ 100 then (pos : Int) else s.edgeThresh := by
  by_cases hle : (pos : Int) ≤ 100
  · rw [sliderMoved_of_le env s pos theTrackbar [] h.trackbars hle, if_pos hle]
    rfl
  · rw [sliderMoved_of_gt env s pos theTrackbar [] h.trackbars (not_le.mp hle), if_neg hle]

/-- What the key wait leaves behind when it returns from a running previewer. -/
theorem waitLoop_run (env : Env) :
    ∀ (inputs : List Input) (s : State) (code : Int) (s2 : State),
      Running env s → waitLoop env s inputs = some (code, s2) →
      Running env s2 ∧ s2.image = s.image ∧ s2.gray = s.gray
        ∧ s2.edgeThresh = lastThresh 100 s.edgeThresh inputs
        ∧ s2.trace = s.trace ++ sliderTrace env s.image s.gray 100 inputs := by
  intro inputs
  induction inputs with
  | nil => intro s code s2 _ h; simp [waitLoop] at h
  | cons i rest ih =>
    intro s code s2 hr h
    cases i with
    | key k =>
      simp only [waitLoop, Option.some.injEq, Prod.mk.injEq] at h
      rw [← h.2]
      exact ⟨hr, rfl, rfl, rfl, by simp [sliderTrace]⟩
    | slide pos =>
      simp only [waitLoop] at h
      obtain ⟨h1, h2, h3, h4, h5⟩ := ih _ code s2 (sliderMoved_running env s pos hr) h
      refine ⟨h1, ?_, ?_, ?_, ?_⟩
      · rw [h2, sliderMoved_image]
      · rw [h3, sliderMoved_gray]
      · rw [h4, sliderMoved_edgeThresh env s pos hr]
        rfl
      · rw [h5, sliderMoved_trace env s pos hr, sliderMoved_image, sliderMoved_gray,
          List.append_assoc]
        rfl

theorem cvtColor_empty (env : Env) (src : Mat) (code : Int) :
    (cvtColor env src code).empty = src.empty := rfl

theorem mainSetup_trace (env : Env) (argv : List String) :
    (mainSetup env (mainLoad env argv)).trace
      = [Event.imread (filename argv) 1,
         Event.create (env.imread (filename argv) 1).size (env.imread (filename argv) 1).type,
         Event.cvtColor CV_BGR2GRAY, Event.namedWindow "Edge map" 1,
         Event.createTrackbar "Canny threshold" "Edge map" 1 100 Callback.onTrackbar] := by
  simp [mainSetup, mainCreate, mainLoad, namedWindow, createTrackbar, State.log, State.initial]

/-- The state in which `main` enters the key wait. -/
theorem main_before_wait (env : Env) (argv : List String)
    (hne : (env.imread (filename argv) 1).empty = false) :
    Running env (onTrackbar env 0 (mainSetup env (mainLoad env argv)))
      ∧ (onTrackbar env 0 (mainSetup env (mainLoad env argv))).trace
          = [Event.imread (filename argv) 1,
             Event.create (env.imread (filename argv) 1).size (env.imread (filename argv) 1).type,
             Event.cvtColor CV_BGR2GRAY, Event.namedWindow "Edge map" 1,
             Event.createTrackbar "Canny threshold" "Edge map" 1 100 Callback.onTrackbar]
            ++ callbackTrace env (env.imread (filename argv) 1)
                (cvtColor env (env.imread (filename argv) 1) CV_BGR2GRAY) 1 := by
  have hg : (mainSetup env (mainLoad env argv)).gray.empty = false := by
    show (cvtColor env (env.imread (filename argv) 1) CV_BGR2GRAY).empty = false
    rw [cvtColor_empty]; exact hne
  have h1 : (mainSetup env (mainLoad env argv)).edgeThresh = 1 := rfl
  constructor
  · exact onTrackbar_running env 0 _ rfl hg (by rw [h1]; decide) (by rw [h1]; decide)
  · rw [onTrackbar_trace_eq env 0 _ hg (by rw [h1]; decide) (by rw [h1]; decide),
      mainSetup_trace]
    rfl

/-- Unfolding of `main` for an image that decoded. -/
theorem main_of_nonempty (env : Env) (argv : List String) (inputs : List Input)
    (hne : (env.imread (filename argv) 1).empty = false) :
    main env argv inputs
      = (waitLoop env ((onTrackbar env 0 (mainSetup env (mainLoad env argv))).log
          (Event.waitKey 0)) inputs).map (fun r => ((0 : Int), r.2)) := by
  have hl : (mainLoad env argv).image.empty = false := hne
  unfold main
  simp only [hl, Bool.false_eq_true, if_false, waitKey]
  cases waitLoop env ((onTrackbar env 0 (mainSetup env (mainLoad env argv))).log
      (Event.waitKey 0)) inputs <;> rfl

/-- Unfolding of `main` for an image that did not decode. -/
theorem main_of_empty (env : Env) (argv : List String) (inputs : List Input)
    (he : (env.imread (filename argv) 1).empty = true) :
    main env argv inputs
      = some (-1, (mainLoad env argv).log (Event.cout "Usage: edge <image_name>")) := by
  have hl : (mainLoad env argv).image.empty = true := he
  unfold main
  simp only [hl, if_true]

/-- Every run of `main` on an image that decoded: return code, final state and the
complete list of library calls. -/
theorem main_run (env : Env) (argv : List String) (inputs : List Input) (rc : Int)
    (s : State) (hne : (env.imread (filename argv) 1).empty = false)
    (h : main env argv inputs = some (rc, s)) :
    rc = 0 ∧ Running env s
      ∧ s.image = env.imread (filename argv) 1
      ∧ s.gray = cvtColor env (env.imread (filename argv) 1) CV_BGR2GRAY
      ∧ s.edgeThresh = lastThresh 100 1 inputs
      ∧ s.trace = startupTrace (filename argv) (env.imread (filename argv) 1)
            (composite (env.imread (filename argv) 1)
              (edgeMap env (cvtColor env (env.imread (filename argv) 1) CV_BGR2GRAY) 1))
          ++ sliderTrace env (env.imread (filename argv) 1)
              (cvtColor env (env.imread (filename argv) 1) CV_BGR2GRAY) 100 inputs := by
  rw [main_of_nonempty env argv inputs hne] at h
  obtain ⟨hrun, htr⟩ := main_before_wait env argv hne
  cases hw : waitLoop env ((onTrackbar env 0 (mainSetup env (mainLoad env argv))).log
      (Event.waitKey 0)) inputs with
  | none => rw [hw] at h; simp at h
  | some r =>
    rw [hw] at h
    simp only [Option.map_some', Option.some.injEq, Prod.mk.injEq] at h
    obtain ⟨h1, h2, h3, h4, h5⟩ :=
      waitLoop_run env inputs _ r.1 r.2 (running_log env _ (Event.waitKey 0) hrun) hw
    rw [h.2] at h1 h2 h3 h4 h5
    refine ⟨h.1.symm, h1, h2, h3, h4, ?_⟩
    rw [h5]
    show ((onTrackbar env 0 (mainSetup env (mainLoad env argv))).trace ++ [Event.waitKey 0]) ++ _
      = _
    rw [htr]
    simp [startupTrace, callbackTrace]
    rfl

/-- On an image that decoded, `main` returns exactly when a key is pressed. -/
theorem main_isSome (env : Env) (argv : List String) (inputs : List Input)
    (hne : (env.imread (filename argv) 1).empty = false) :
    (main env argv inputs).isSome = true ↔ ∃ code, Input.key code ∈ inputs := by
  rw [main_of_nonempty env argv inputs hne, Option.isSome_map']
  exact waitLoop_isSome env inputs _

/-- The slider moves add no call outside the body of `onTrackbar`. -/
theorem sliderTrace_filter (env : Env) (image gray : Mat) (count : Int) (p : Event → Bool)
    (hp : ∀ e, e.inCallback = true → p e = false) :
    ∀ inputs : List Input, (sliderTrace env image gray count inputs).filter p = [] := by
  intro inputs
  induction inputs with
  | nil => rfl
  | cons i rest ih =>
    cases i with
    | key k => rfl
    | slide pos =>
      simp only [sliderTrace, List.filter_append, ih, List.append_nil]
      split
      · simp [callbackTrace, hp, Event.inCallback]
      · rfl

/-- Every detector call caused by a slider move has thresholds `(u, 3u)` with `u` in the
slider range, and aperture 3. -/
theorem sliderTrace_canny (env : Env) (image gray : Mat) :
    ∀ inputs : List Input, ∀ e ∈ sliderTrace env image gray 100 inputs, e.isCanny = true →
      ∃ u : Int, 0 ≤ u ∧ u ≤ 100 ∧ e = Event.Canny u (3 * u) 3 := by
  intro inputs
  induction inputs with
  | nil => intro e he; simp [sliderTrace] at he
  | cons i rest ih =>
    cases i with
    | key k => intro e he; simp [sliderTrace] at he
    | slide pos =>
      intro e he hc
      simp only [sliderTrace, List.mem_append] at he
      rcases he with he | he
      · by_cases hle : (pos : Int) ≤ 100
        · rw [if_pos hle] at he
          simp only [callbackTrace, List.mem_cons, List.mem_singleton, List.not_mem_nil,
            or_false] at he
          rcases he with h | h | h | h | h
          · rw [h] at hc; simp [Event.isCanny] at hc
          · exact ⟨pos, Int.natCast_nonneg pos, hle, h⟩
          · rw [h] at hc; simp [Event.isCanny] at hc
          · rw [h] at hc; simp [Event.isCanny] at hc
          · rw [h] at hc; simp [Event.isCanny] at hc
        · rw [if_neg hle] at he
          simp at he
      · exact ih e he hc

theorem edge_nonempty_of_lt (m : Mat) (r c : Nat) (hr : r < m.rows) (hc : c < m.cols) :
    m.empty = false := by
  unfold Mat.empty
  have h1 : m.rows ≠ 0 := by omega
  have h2 : m.cols ≠ 0 := by omega
  simp [h1, h2]

theorem create_sameShape (m : Mat) (sz : Size) (ty : MatType) (fresh : Nat → Nat → Nat → Nat) :
    (m.create sz ty fresh).rows = sz.height ∧ (m.create sz ty fresh).cols = sz.width
      ∧ (m.create sz ty fresh).type = ty := by
  unfold Mat.create
  by_cases h : m.hasShape sz ty = true
  · simp only [h, if_true]
    simpa [Mat.hasShape, and_assoc] using h
  · simp [h]

/-- The threshold left by slider moves that end at position `a`, followed by a key. -/
theorem lastThresh_ending (a : Nat) (ha : (a : Int) ≤ 100) (k : Int) (rest : List Input) :
    ∀ (xs : List Nat) (t0 : Int),
      lastThresh 100 t0 (xs.map Input.slide ++ Input.slide a :: Input.key k :: rest) = a := by
  intro xs
  induction xs with
  | nil => intro t0; simp [lastThresh, ha]
  | cons x xs ih => intro t0; simp only [List.map_cons, List.cons_append, lastThresh]; exact ih _

theorem main_trace_filter (env : Env) (argv : List String) (inputs : List Input) (rc : Int)
    (s : State) (p : Event → Bool) (hp : ∀ e, e.inCallback = true → p e = false)
    (hne : (env.imread (filename argv) 1).empty = false)
    (h : main env argv inputs = some (rc, s)) :
    s.trace.filter p
      = (startupTrace (filename argv) (env.imread (filename argv) 1)
          (composite (env.imread (filename argv) 1)
            (edgeMap env (cvtColor env (env.imread (filename argv) 1) CV_BGR2GRAY) 1))).filter
          p := by
  obtain ⟨-, -, -, -, -, htr⟩ := main_run env argv inputs rc s hne h
  rw [htr, List.filter_append, sliderTrace_filter env _ _ _ p hp, List.append_nil]

/-! ### The claims -/

/-- C1: when the selected file decodes to an empty image, `main` returns the non-zero code
-1 whatever the user does; the only library calls it has made are the decode and the print
of the line "Usage: edge <image_name>", so no window was created, no trackbar registered,
no call of the body of `onTrackbar` made and the key wait never entered; no trackbar is
registered and the buffers `gray`, `edge` and `cedge` are still empty. -/
theorem main_empty_image (env : Env) (argv : List String) (inputs : List Input)
    (he : (env.imread (filename argv) 1).empty = true) :
    ∃ s, main env argv inputs = some (-1, s)
      ∧ (-1 : Int) ≠ 0
      ∧ s.trace = [Event.imread (filename argv) 1, Event.cout "Usage: edge <image_name>"]
      ∧ (∀ e ∈ s.trace, e.isNamedWindow = false ∧ e.isCreateTrackbar = false
            ∧ e.inCallback = false ∧ e.isWaitKey = false)
      ∧ s.trackbars = []
      ∧ s.gray = Mat.default ∧ s.edge = Mat.default ∧ s.cedge = Mat.default := by
  refine ⟨_, main_of_empty env argv inputs he, by decide, ?_, ?_, rfl, rfl, rfl, rfl⟩
  · simp [State.log, mainLoad, State.initial]
  · intro e he2
    have : e = Event.imread (filename argv) 1 ∨ e = Event.cout "Usage: edge <image_name>" := by
      simpa [State.log, mainLoad, State.initial] using he2
    rcases this with h | h <;> rw [h] <;> exact ⟨rfl, rfl, rfl, rfl⟩

/-- Witness of C1: the file `missing.png` does not decode in the sample environment. -/
theorem main_empty_image_witness :
    (sampleEnv.imread (filename ["edge", "missing.png"]) 1).empty = true
      ∧ ∃ s, main sampleEnv ["edge", "missing.png"] [Input.slide 5, Input.key 27] = some (-1, s)
        ∧ (-1 : Int) ≠ 0
        ∧ s.trace = [Event.imread (filename ["edge", "missing.png"]) 1,
            Event.cout "Usage: edge <image_name>"]
        ∧ (∀ e ∈ s.trace, e.isNamedWindow = false ∧ e.isCreateTrackbar = false
              ∧ e.inCallback = false ∧ e.isWaitKey = false)
        ∧ s.trackbars = []
        ∧ s.gray = Mat.default ∧ s.edge = Mat.default ∧ s.cedge = Mat.default :=
  ⟨by decide, main_empty_image sampleEnv ["edge", "missing.png"] [Input.slide 5, Input.key 27]
    (by decide)⟩

/-- C2: when a key is pressed during the run, `main` returns 0 exactly when the decoded
image is non-empty.  For a non-empty image it then returns 0 whatever the key, having
created the one window "Edge map", registered the one trackbar "Canny threshold" with
range 0..100 bound to `onTrackbar`, and entered the key wait once; as long as no key is
pressed it stays in the wait and does not return. -/
theorem main_success (env : Env) (argv : List String) (inputs : List Input) (code : Int)
    (hkey : Input.key code ∈ inputs) :
    ((∃ s, main env argv inputs = some (0, s)) ↔ (env.imread (filename argv) 1).empty = false)
      ∧ ((env.imread (filename argv) 1).empty = false →
          (∃ s, main env argv inputs = some (0, s)
            ∧ s.trackbars
                = [Trackbar.mk "Canny threshold" "Edge map" 100 Callback.onTrackbar]
            ∧ s.trace.filter Event.isNamedWindow = [Event.namedWindow "Edge map" 1]
            ∧ s.trace.filter Event.isCreateTrackbar
                = [Event.createTrackbar "Canny threshold" "Edge map" 1 100 Callback.onTrackbar]
            ∧ s.trace.filter Event.isWaitKey = [Event.waitKey 0])
          ∧ ∀ waiting : List Input, (∀ c, Input.key c ∉ waiting) →
              main env argv waiting = none) := by
  constructor
  · constructor
    · rintro ⟨s, hs⟩
      by_contra hne
      rw [main_of_empty env argv inputs (by simpa using hne)] at hs
      simp at hs
    · intro hne
      have hsome := (main_isSome env argv inputs hne).mpr ⟨code, hkey⟩
      obtain ⟨r, hr⟩ := Option.isSome_iff_exists.mp hsome
      obtain ⟨h0, -⟩ := main_run env argv inputs r.1 r.2 hne hr
      exact ⟨r.2, by rw [hr, ← h0]⟩
  · intro hne
    constructor
    · have hsome := (main_isSome env argv inputs hne).mpr ⟨code, hkey⟩
      obtain ⟨r, hr⟩ := Option.isSome_iff_exists.mp hsome
      obtain ⟨h0, hrun, -, -, -, htr⟩ := main_run env argv inputs r.1 r.2 hne hr
      refine ⟨r.2, by rw [hr, ← h0], hrun.trackbars, ?_, ?_, ?_⟩
      · rw [htr, List.filter_append, sliderTrace_filter env _ _ _ _ (by intro e; cases e <;> simp [Event.inCallback, Event.isNamedWindow])]
        rfl
      · rw [htr, List.filter_append, sliderTrace_filter env _ _ _ _ (by intro e; cases e <;> simp [Event.inCallback, Event.isCreateTrackbar])]
        rfl
      · rw [htr, List.filter_append, sliderTrace_filter env _ _ _ _ (by intro e; cases e <;> simp [Event.inCallback, Event.isWaitKey])]
        rfl
    · intro waiting hw
      have hn : ¬ (main env argv waiting).isSome = true := by
        rw [main_isSome env argv waiting hne]
        rintro ⟨c, hc⟩
        exact hw c hc
      simpa using hn

/-- Witness of C2: the file `a.png` decodes in the sample environment and the user presses
the key 27 after one slider move. -/
theorem main_success_witness :
    Input.key 27 ∈ [Input.slide 5, Input.key 27]
      ∧ (sampleEnv.imread (filename ["edge", "a.png"]) 1).empty = false
      ∧ ∃ s, main sampleEnv ["edge", "a.png"] [Input.slide 5, Input.key 27] = some (0, s)
          ∧ s.trackbars
              = [Trackbar.mk "Canny threshold" "Edge map" 100 Callback.onTrackbar]
          ∧ s.trace.filter Event.isNamedWindow = [Event.namedWindow "Edge map" 1]
          ∧ s.trace.filter Event.isCreateTrackbar
              = [Event.createTrackbar "Canny threshold" "Edge map" 1 100 Callback.onTrackbar]
          ∧ s.trace.filter Event.isWaitKey = [Event.waitKey 0] :=
  ⟨by decide, by decide,
    ((main_success sampleEnv ["edge", "a.png"] [Input.slide 5, Input.key 27] 27
      (by decide)).2 (by decide)).1⟩

/-- C3: for a threshold `t` in `[0,100]` the product `t*3`, computed as a 32-bit `int`,
does not overflow and `onTrackbar` calls the detector with low threshold `t`, high
threshold `3*t` and aperture 3; a slider move to position `t` of the trackbar of line 50
stores `t` and makes exactly this call; and in every run of `main` each detector call has
thresholds `(u, 3*u)` for some `u` in `[0,100]`, and aperture 3. -/
theorem onTrackbar_thresholds (env : Env) :
    (∀ t : Int, 0 ≤ t → t ≤ 100 →
        (-(2 ^ 31) ≤ t * 3 ∧ t * 3 < 2 ^ 31 ∧ wrapInt32 (t * 3) = 3 * t)
        ∧ ∀ (pos : Int) (s : State), s.edgeThresh = t →
            (onTrackbar env pos s).edge = Canny env (blur env s.gray ⟨3, 3⟩) t (3 * t) 3
            ∧ (onTrackbar env pos s).trace.filter Event.isCanny
                = s.trace.filter Event.isCanny ++ [Event.Canny t (3 * t) 3])
      ∧ (∀ t : Nat, t ≤ 100 → ∀ s : State, s.trackbars = [theTrackbar] →
            (sliderMoved env s t).edgeThresh = t
            ∧ (sliderMoved env s t).edge
                = Canny env (blur env s.gray ⟨3, 3⟩) t (3 * t) 3
            ∧ (sliderMoved env s t).trace.filter Event.isCanny
                = s.trace.filter Event.isCanny ++ [Event.Canny t (3 * t) 3])
      ∧ (∀ (argv : List String) (inputs : List Input) (rc : Int) (s : State),
            main env argv inputs = some (rc, s) →
            ∀ e ∈ s.trace, e.isCanny = true →
              ∃ u : Int, 0 ≤ u ∧ u ≤ 100 ∧ e = Event.Canny u (3 * u) 3) := by
  have key : ∀ t : Int, 0 ≤ t → t ≤ 100 → ∀ (pos : Int) (s : State), s.edgeThresh = t →
      (onTrackbar env pos s).edge = Canny env (blur env s.gray ⟨3, 3⟩) t (3 * t) 3
      ∧ (onTrackbar env pos s).trace.filter Event.isCanny
          = s.trace.filter Event.isCanny ++ [Event.Canny t (3 * t) 3] := by
    intro t h0 h100 pos s hs
    subst hs
    constructor
    · rw [onTrackbar_edge, wrapInt32_triple _ h0 h100]
    · rw [onTrackbar_trace, wrapInt32_triple _ h0 h100]
      simp [List.filter_append, List.filter_cons, Event.isCanny]
  refine ⟨?_, ?_, ?_⟩
  · intro t h0 h100
    exact ⟨⟨by omega, by omega, wrapInt32_triple t h0 h100⟩, key t h0 h100⟩
  · intro t ht s htb
    have hle : ((t : Nat) : Int) ≤ theTrackbar.count := by
      show (t : Int) ≤ 100
      exact_mod_cast ht
    rw [sliderMoved_of_le env s t theTrackbar [] htb hle]
    have := key (t : Int) (Int.natCast_nonneg t) (by exact_mod_cast ht) (t : Int)
      { s with edgeThresh := t } rfl
    exact ⟨rfl, this.1, this.2⟩
  · intro argv inputs rc s hm e he hc
    by_cases hne : (env.imread (filename argv) 1).empty = false
    · obtain ⟨-, -, -, -, -, htr⟩ := main_run env argv inputs rc s hne hm
      rw [htr, List.mem_append] at he
      rcases he with he | he
      · simp only [startupTrace, List.mem_cons, List.mem_singleton, List.not_mem_nil,
          or_false] at he
        rcases he with h | h | h | h | h | h | h | h | h | h | h
        all_goals first
          | exact ⟨1, by decide, by decide, h⟩
          | (rw [h] at hc; simp [Event.isCanny] at hc)
      · exact sliderTrace_canny env _ _ inputs e he hc
    · rw [main_of_empty env argv inputs (by simpa using hne)] at hm
      simp only [Option.some.injEq, Prod.mk.injEq] at hm
      rw [← hm.2] at he
      have : e = Event.imread (filename argv) 1 ∨ e = Event.cout "Usage: edge <image_name>" := by
        simpa [State.log, mainLoad, State.initial] using he
      rcases this with h | h <;> (rw [h] at hc; simp [Event.isCanny] at hc)

/-- Witness of C3: the slider ends `(0,0)` and `(100,300)`, on the sample state. -/
theorem onTrackbar_thresholds_witness :
    ((onTrackbar sampleEnv 0 { sampleState with edgeThresh := 0 }).trace.filter Event.isCanny
        = [Event.Canny 0 0 3])
      ∧ ((onTrackbar sampleEnv 100 { sampleState with edgeThresh := 100 }).trace.filter
          Event.isCanny = [Event.Canny 100 300 3])
      ∧ wrapInt32 (100 * 3) = 300 :=
  ⟨(((onTrackbar_thresholds sampleEnv).1 0 (by decide) (by decide)).2 0
      { sampleState with edgeThresh := 0 } rfl).2,
   (((onTrackbar_thresholds sampleEnv).1 100 (by decide) (by decide)).2 100
      { sampleState with edgeThresh := 100 } rfl).2,
   ((onTrackbar_thresholds sampleEnv).1 100 (by decide) (by decide)).1.2.2⟩

/-- C4: after any invocation of `onTrackbar`, from any state (any threshold, any prior
content of `cedge` and `edge`), every channel of the composite `cedge` is 0 at each
position of the edge mask where the mask is zero. -/
theorem onTrackbar_nonedge_zero (env : Env) (pos : Int) (s : State) (r c ch : Nat)
    (hr : r < (onTrackbar env pos s).edge.rows) (hc : c < (onTrackbar env pos s).edge.cols)
    (hz : (onTrackbar env pos s).edge.data r c 0 = 0) :
    (onTrackbar env pos s).cedge.data r c ch = 0 := by
  have hm := edge_nonempty_of_lt _ r c hr hc
  rw [onTrackbar_cedge, copyToMask_assign_eq _ _ _ hm]
  have h1 : (onTrackbar env pos s).edge.type.channels = 1 := rfl
  simp [h1, hz]

/-- Witness of C4: position (0,0) of the sample image is not an edge at threshold 1, and
the stale value 9 of the composite there is replaced by 0. -/
theorem onTrackbar_nonedge_zero_witness :
    (0 < (onTrackbar sampleEnv 0 sampleState).edge.rows
      ∧ 0 < (onTrackbar sampleEnv 0 sampleState).edge.cols
      ∧ (onTrackbar sampleEnv 0 sampleState).edge.data 0 0 0 = 0
      ∧ sampleState.cedge.data 0 0 2 = 9)
      ∧ (onTrackbar sampleEnv 0 sampleState).cedge.data 0 0 2 = 0 :=
  ⟨by decide, onTrackbar_nonedge_zero sampleEnv 0 sampleState 0 0 2 (by decide) (by decide)
    (by decide)⟩

/-- C5: after any invocation of `onTrackbar`, the composite `cedge` equals the source image
in every channel at each position of the edge mask where the mask is non-zero; and as soon
as the mask has a position at all, `cedge` as a whole is the source pixel where the mask
is set and black elsewhere. -/
theorem onTrackbar_edge_pixels (env : Env) (pos : Int) (s : State) (r c ch : Nat)
    (hr : r < (onTrackbar env pos s).edge.rows) (hc : c < (onTrackbar env pos s).edge.cols)
    (hnz : (onTrackbar env pos s).edge.data r c 0 ≠ 0) :
    (onTrackbar env pos s).cedge.data r c ch = s.image.data r c ch
      ∧ (onTrackbar env pos s).cedge = composite s.image (onTrackbar env pos s).edge := by
  have hm := edge_nonempty_of_lt _ r c hr hc
  have hg : s.gray.empty = false := by rw [← onTrackbar_edge_empty env pos s]; exact hm
  have hall := onTrackbar_cedge_eq env pos s hg
  refine ⟨?_, hall⟩
  rw [hall]
  simp [composite, hnz]

/-- Witness of C5: position (0,1) of the sample image is an edge at threshold 1. -/
theorem onTrackbar_edge_pixels_witness :
    (0 < (onTrackbar sampleEnv 0 sampleState).edge.rows
      ∧ 1 < (onTrackbar sampleEnv 0 sampleState).edge.cols
      ∧ (onTrackbar sampleEnv 0 sampleState).edge.data 0 1 0 ≠ 0
      ∧ sampleState.image.data 0 1 2 = 22)
      ∧ (onTrackbar sampleEnv 0 sampleState).cedge.data 0 1 2 = sampleState.image.data 0 1 2
      ∧ (onTrackbar sampleEnv 0 sampleState).cedge
          = composite sampleState.image (onTrackbar sampleEnv 0 sampleState).edge :=
  ⟨by decide, onTrackbar_edge_pixels sampleEnv 0 sampleState 0 1 2 (by decide) (by decide)
    (by decide)⟩

/-- C6: for a source image that decoded to a non-empty matrix, of any size and type, the
composite buffer has the rows, columns and type of the source image after
`cedge.create` at line 43; `onTrackbar` always leaves `cedge` with the shape of `image`;
when `cedge` already has that shape the zeroing keeps its header and the `create` inside
the masked copy finds the shape it asks for and returns without reallocating; and in the
final state of every run of `main` the composite (and the edge mask) has the size of the
source image. -/
theorem cedge_shape (env : Env) (argv : List String) (inputs : List Input)
    (hne : (env.imread (filename argv) 1).empty = false) :
    (mainCreate env (mainLoad env argv)).cedge.sameShape (env.imread (filename argv) 1)
      ∧ (∀ (pos : Int) (s : State), (onTrackbar env pos s).cedge.sameShape s.image)
      ∧ (∀ s : State, s.cedge.sameShape s.image →
          (s.cedge.assign (Scalar.all 0)).sameShape s.image
          ∧ (s.cedge.assign (Scalar.all 0)).hasShape s.image.size s.image.type = true
          ∧ ∀ fresh, (s.cedge.assign (Scalar.all 0)).create s.image.size s.image.type fresh
              = s.cedge.assign (Scalar.all 0))
      ∧ (∀ (rc : Int) (s : State), main env argv inputs = some (rc, s) →
          s.image = env.imread (filename argv) 1 ∧ s.cedge.sameShape s.image
          ∧ s.edge.rows = s.image.rows ∧ s.edge.cols = s.image.cols) := by
  refine ⟨?_, onTrackbar_cedge_sameShape env, ?_, ?_⟩
  · exact create_sameShape _ _ _ _
  · intro s hs
    have h2 : (s.cedge.assign (Scalar.all 0)).hasShape s.image.size s.image.type = true := by
      obtain ⟨a, b, c⟩ := hs
      simp [Mat.hasShape, Mat.assign, Mat.size, a, b, c]
    refine ⟨hs, h2, ?_⟩
    intro fresh
    simp only [Mat.create, h2, if_true]
  · intro rc s hm
    obtain ⟨-, hrun, himg, hgray, -, -⟩ := main_run env argv inputs rc s hne hm
    refine ⟨himg, ?_, ?_, ?_⟩
    · rw [hrun.cedge]; exact ⟨rfl, rfl, rfl⟩
    · rw [hrun.edge, hgray, himg]; rfl
    · rw [hrun.edge, hgray, himg]; rfl

/-- Witness of C6: the sample image, two rows, two columns, three channels. -/
theorem cedge_shape_witness :
    (sampleEnv.imread (filename ["edge", "a.png"]) 1).empty = false
      ∧ (mainCreate sampleEnv (mainLoad sampleEnv ["edge", "a.png"])).cedge.sameShape
          (sampleEnv.imread (filename ["edge", "a.png"]) 1)
      ∧ (onTrackbar sampleEnv 0 sampleState).cedge.sameShape sampleState.image :=
  ⟨by decide,
   (cedge_shape sampleEnv ["edge", "a.png"] [Input.key 27] (by decide)).1,
   (cedge_shape sampleEnv ["edge", "a.png"] [Input.key 27] (by decide)).2.1 0 sampleState⟩

/-- C7: the file `main` decodes is `argv[1]` when `argc` is 2, and "fruits.jpg" when there
is no argument and for every other argument count; `main` decodes that file with flag 1,
once, and the decoded matrix is still the source image when `main` returns. -/
theorem filename_selection (env : Env) (argv : List String) (inputs : List Input) :
    (∀ prog path : String, filename [prog, path] = path)
      ∧ (∀ prog : String, filename [prog] = "fruits.jpg")
      ∧ (argv.length ≠ 2 → filename argv = "fruits.jpg")
      ∧ (mainLoad env argv).image = env.imread (filename argv) 1
      ∧ (mainLoad env argv).trace = [Event.imread (filename argv) 1]
      ∧ (∀ (rc : Int) (s : State), main env argv inputs = some (rc, s) →
          s.image = env.imread (filename argv) 1
          ∧ s.trace.filter Event.isImread = [Event.imread (filename argv) 1]) := by
  refine ⟨fun _ _ => rfl, fun _ => rfl, ?_, rfl, rfl, ?_⟩
  · intro h
    simp [filename, h]
  · intro rc s hm
    by_cases hne : (env.imread (filename argv) 1).empty = false
    · refine ⟨(main_run env argv inputs rc s hne hm).2.2.1, ?_⟩
      rw [main_trace_filter env argv inputs rc s Event.isImread
        (by intro e; cases e <;> simp [Event.inCallback, Event.isImread]) hne hm]
      rfl
    · rw [main_of_empty env argv inputs (by simpa using hne)] at hm
      simp only [Option.some.injEq, Prod.mk.injEq] at hm
      rw [← hm.2]
      exact ⟨rfl, rfl⟩

/-- Witness of C7: one argument, no argument, three arguments. -/
theorem filename_selection_witness :
    filename ["edge", "a.png"] = "a.png"
      ∧ filename ["edge"] = "fruits.jpg"
      ∧ filename ["edge", "a.png", "b.png", "c.png"] = "fruits.jpg"
      ∧ (mainLoad sampleEnv ["edge", "a.png", "b.png", "c.png"]).trace
          = [Event.imread "fruits.jpg" 1] :=
  ⟨(filename_selection sampleEnv [] []).1 "edge" "a.png",
   (filename_selection sampleEnv [] []).2.1 "edge",
   (filename_selection sampleEnv ["edge", "a.png", "b.png", "c.png"] []).2.2.1 (by decide),
   (filename_selection sampleEnv ["edge", "a.png", "b.png", "c.png"] []).2.2.2.2.1⟩

/-- C8: an invocation of `onTrackbar` leaves `image`, `gray` and `edgeThresh` (and the
registered trackbars) as they were: the state after it is the state before it with new
`edge`, new `cedge` and a longer call log.  In every run of `main` on an image that
decoded, the final source image is the matrix decoded at line 36, the final grayscale
image is its conversion, and the log holds one decode and one colour conversion. -/
theorem onTrackbar_frame (env : Env) :
    (∀ (pos : Int) (s : State),
        (onTrackbar env pos s).image = s.image
        ∧ (onTrackbar env pos s).gray = s.gray
        ∧ (onTrackbar env pos s).edgeThresh = s.edgeThresh
        ∧ (onTrackbar env pos s).trackbars = s.trackbars
        ∧ onTrackbar env pos s
            = { s with edge := (onTrackbar env pos s).edge,
                       cedge := (onTrackbar env pos s).cedge,
                       trace := (onTrackbar env pos s).trace })
      ∧ (∀ (argv : List String) (inputs : List Input) (rc : Int) (s : State),
          (env.imread (filename argv) 1).empty = false →
          main env argv inputs = some (rc, s) →
          s.image = env.imread (filename argv) 1
          ∧ s.gray = cvtColor env (env.imread (filename argv) 1) CV_BGR2GRAY
          ∧ s.trace.filter Event.isImread = [Event.imread (filename argv) 1]
          ∧ s.trace.filter Event.isCvtColor = [Event.cvtColor CV_BGR2GRAY]) := by
  refine ⟨fun pos s => ⟨rfl, rfl, rfl, rfl, rfl⟩, ?_⟩
  intro argv inputs rc s hne hm
  obtain ⟨-, -, himg, hgray, -, -⟩ := main_run env argv inputs rc s hne hm
  refine ⟨himg, hgray, ?_, ?_⟩
  · rw [main_trace_filter env argv inputs rc s Event.isImread
      (by intro e; cases e <;> simp [Event.inCallback, Event.isImread]) hne hm]
    rfl
  · rw [main_trace_filter env argv inputs rc s Event.isCvtColor
      (by intro e; cases e <;> simp [Event.inCallback, Event.isCvtColor]) hne hm]
    rfl

/-- Witness of C8: the sample state, whose `edge` and `cedge` do change. -/
theorem onTrackbar_frame_witness :
    (onTrackbar sampleEnv 0 sampleState).image = sampleState.image
      ∧ (onTrackbar sampleEnv 0 sampleState).gray = sampleState.gray
      ∧ (onTrackbar sampleEnv 0 sampleState).edgeThresh = 1
      ∧ (onTrackbar sampleEnv 0 sampleState).cedge.data 0 0 0 ≠ sampleState.cedge.data 0 0 0
      ∧ (onTrackbar sampleEnv 0 sampleState).edge.data 0 0 0 ≠ sampleState.edge.data 0 0 0 :=
  ⟨((onTrackbar_frame sampleEnv).1 0 sampleState).1,
   ((onTrackbar_frame sampleEnv).1 0 sampleState).2.1,
   ((onTrackbar_frame sampleEnv).1 0 sampleState).2.2.1,
   by decide, by decide⟩

/-- C9: on an image that decoded, `main` calls `onTrackbar` in a state where
`edgeThresh` is 1, the grayscale image is the conversion of the source, `cedge` has the
shape of the source, and window and trackbar have been created; this run calls the
detector with thresholds (1,3) and displays the composite for threshold 1.  In every run
the calls made before the key wait contain the body of `onTrackbar` exactly once, after
the five set-up calls; and when a key is pressed before any slider move, these calls and
the key wait are all the calls `main` makes. -/
theorem main_initial_recompute (env : Env) (argv : List String) (inputs : List Input)
    (hne : (env.imread (filename argv) 1).empty = false) :
    ((mainSetup env (mainLoad env argv)).edgeThresh = 1
        ∧ (mainSetup env (mainLoad env argv)).gray
            = cvtColor env (env.imread (filename argv) 1) CV_BGR2GRAY
        ∧ (mainSetup env (mainLoad env argv)).cedge.sameShape (env.imread (filename argv) 1)
        ∧ (mainSetup env (mainLoad env argv)).trackbars = [theTrackbar]
        ∧ (mainSetup env (mainLoad env argv)).trace
            = [Event.imread (filename argv) 1,
               Event.create (env.imread (filename argv) 1).size
                 (env.imread (filename argv) 1).type,
               Event.cvtColor CV_BGR2GRAY, Event.namedWindow "Edge map" 1,
               Event.createTrackbar "Canny threshold" "Edge map" 1 100 Callback.onTrackbar])
      ∧ (onTrackbar env 0 (mainSetup env (mainLoad env argv))).trace
          = (mainSetup env (mainLoad env argv)).trace
            ++ [Event.blur ⟨3, 3⟩, Event.Canny 1 3 3, Event.assign 0, Event.copyTo,
                Event.imshow "Edge map"
                  (composite (env.imread (filename argv) 1)
                    (edgeMap env (cvtColor env (env.imread (filename argv) 1) CV_BGR2GRAY) 1))]
      ∧ (∀ (rc : Int) (s : State), main env argv inputs = some (rc, s) →
          s.trace
            = startupTrace (filename argv) (env.imread (filename argv) 1)
                (composite (env.imread (filename argv) 1)
                  (edgeMap env (cvtColor env (env.imread (filename argv) 1) CV_BGR2GRAY) 1))
              ++ sliderTrace env (env.imread (filename argv) 1)
                  (cvtColor env (env.imread (filename argv) 1) CV_BGR2GRAY) 100 inputs
          ∧ (s.trace.takeWhile (fun e => !e.isWaitKey)).filter Event.inCallback
            = callbackTrace env (env.imread (filename argv) 1)
                (cvtColor env (env.imread (filename argv) 1) CV_BGR2GRAY) 1)
      ∧ (∀ (code : Int) (rest : List Input),
          ∃ s, main env argv (Input.key code :: rest) = some (0, s)
            ∧ s.trace
              = startupTrace (filename argv) (env.imread (filename argv) 1)
                  (composite (env.imread (filename argv) 1)
                    (edgeMap env (cvtColor env (env.imread (filename argv) 1) CV_BGR2GRAY)
                      1))) := by
  obtain ⟨-, htr⟩ := main_before_wait env argv hne
  refine ⟨⟨rfl, rfl, create_sameShape _ _ _ _, rfl, mainSetup_trace env argv⟩, ?_, ?_, ?_⟩
  · rw [htr, mainSetup_trace]
    rfl
  · intro rc s hm
    obtain ⟨-, -, -, -, -, h⟩ := main_run env argv inputs rc s hne hm
    refine ⟨h, ?_⟩
    rw [h]
    simp [startupTrace, callbackTrace, List.takeWhile_cons, Event.isWaitKey, Event.inCallback]
  · intro code rest
    have hsome := (main_isSome env argv (Input.key code :: rest) hne).mpr
      ⟨code, List.mem_cons_self _ _⟩
    obtain ⟨r, hr⟩ := Option.isSome_iff_exists.mp hsome
    obtain ⟨h0, -, -, -, -, h⟩ := main_run env argv _ r.1 r.2 hne hr
    refine ⟨r.2, by rw [hr, ← h0], ?_⟩
    rw [h]
    simp [sliderTrace]

/-- Witness of C9: a run on `a.png` in which the first input is a key press. -/
theorem main_initial_recompute_witness :
    (sampleEnv.imread (filename ["edge", "a.png"]) 1).empty = false
      ∧ ∃ s, main sampleEnv ["edge", "a.png"] [Input.key 27] = some (0, s)
          ∧ s.trace
            = startupTrace (filename ["edge", "a.png"])
                (sampleEnv.imread (filename ["edge", "a.png"]) 1)
                (composite (sampleEnv.imread (filename ["edge", "a.png"]) 1)
                  (edgeMap sampleEnv
                    (cvtColor sampleEnv (sampleEnv.imread (filename ["edge", "a.png"]) 1)
                      CV_BGR2GRAY) 1)) :=
  ⟨by decide,
   (main_initial_recompute sampleEnv ["edge", "a.png"] [] (by decide)).2.2.2 27 []⟩

/-- C10: the edge mask and the composite `onTrackbar` produces are determined by the
source image, the grayscale image and the threshold: two invocations from states that
agree on these three agree on `edge` and `cedge`, whatever the buffers held before; a
second invocation in a row reproduces both; and two runs of `main` on the same arguments
that end with the slider at the same position `a` of its range end with the same edge
mask and the same composite, whatever slider moves came before. -/
theorem onTrackbar_deterministic (env : Env) :
    (∀ (p1 p2 : Int) (s1 s2 : State), s1.image = s2.image → s1.gray = s2.gray →
        s1.edgeThresh = s2.edgeThresh →
        (onTrackbar env p1 s1).edge = (onTrackbar env p2 s2).edge
        ∧ (onTrackbar env p1 s1).cedge = (onTrackbar env p2 s2).cedge)
      ∧ (∀ (p1 p2 : Int) (s : State),
          (onTrackbar env p2 (onTrackbar env p1 s)).edge = (onTrackbar env p1 s).edge
          ∧ (onTrackbar env p2 (onTrackbar env p1 s)).cedge = (onTrackbar env p1 s).cedge)
      ∧ (∀ (argv : List String) (xs ys : List Nat) (a : Nat) (k1 k2 rc1 rc2 : Int)
          (rest1 rest2 : List Input) (s1 s2 : State), a ≤ 100 →
          main env argv (xs.map Input.slide ++ Input.slide a :: Input.key k1 :: rest1)
            = some (rc1, s1) →
          main env argv (ys.map Input.slide ++ Input.slide a :: Input.key k2 :: rest2)
            = some (rc2, s2) →
          s2.edge = s1.edge ∧ s2.cedge = s1.cedge) := by
  have key : ∀ (p1 p2 : Int) (s1 s2 : State), s1.image = s2.image → s1.gray = s2.gray →
      s1.edgeThresh = s2.edgeThresh →
      (onTrackbar env p1 s1).edge = (onTrackbar env p2 s2).edge
      ∧ (onTrackbar env p1 s1).cedge = (onTrackbar env p2 s2).cedge := by
    intro p1 p2 s1 s2 hi hg ht
    have he : (onTrackbar env p1 s1).edge = (onTrackbar env p2 s2).edge := by
      rw [onTrackbar_edge, onTrackbar_edge, hg, ht]
    refine ⟨he, ?_⟩
    rw [onTrackbar_cedge, onTrackbar_cedge, he, hi]
    by_cases hm : (onTrackbar env p2 s2).edge.empty = true
    · simp [Mat.copyToMask, hm, Mat.copyTo]
    · rw [copyToMask_assign_eq _ _ _ (by simpa using hm),
        copyToMask_assign_eq _ _ _ (by simpa using hm)]
  refine ⟨key, fun p1 p2 s => key p2 p1 (onTrackbar env p1 s) s rfl rfl rfl, ?_⟩
  intro argv xs ys a k1 k2 rc1 rc2 rest1 rest2 s1 s2 ha h1 h2
  have ha2 : (a : Int) ≤ 100 := by exact_mod_cast ha
  by_cases hne : (env.imread (filename argv) 1).empty = false
  · obtain ⟨-, r1, i1, g1, t1, -⟩ := main_run env argv _ rc1 s1 hne h1
    obtain ⟨-, r2, i2, g2, t2, -⟩ := main_run env argv _ rc2 s2 hne h2
    rw [lastThresh_ending a ha2] at t1 t2
    have he : s2.edge = s1.edge := by rw [r1.edge, r2.edge, g1, g2, t1, t2]
    exact ⟨he, by rw [r1.cedge, r2.cedge, he, i1, i2]⟩
  · have hemp : (env.imread (filename argv) 1).empty = true := by simpa using hne
    rw [main_of_empty env argv _ hemp] at h1 h2
    simp only [Option.some.injEq, Prod.mk.injEq] at h1 h2
    rw [← h1.2, ← h2.2]
    exact ⟨rfl, rfl⟩

/-- Witness of C10: on the sample image, a recompute from stale buffers and one from empty
buffers give the same composite, and so do the runs with slider moves `5` and `7, 60, 5`. -/
theorem onTrackbar_deterministic_witness :
    (onTrackbar sampleEnv 0 sampleState).cedge
        = (onTrackbar sampleEnv 3
            { sampleState with edge := Mat.default, cedge := Mat.default }).cedge
      ∧ ∃ s1 s2 : State,
          main sampleEnv ["edge", "a.png"] [Input.slide 5, Input.key 27] = some (0, s1)
          ∧ main sampleEnv ["edge", "a.png"]
              [Input.slide 7, Input.slide 60, Input.slide 5, Input.key 13] = some (0, s2)
          ∧ s2.edge = s1.edge ∧ s2.cedge = s1.cedge :=
  ⟨((onTrackbar_deterministic sampleEnv).1 0 3 sampleState
      { sampleState with edge := Mat.default, cedge := Mat.default } rfl rfl rfl).2,
   _, _, rfl, rfl,
   (onTrackbar_deterministic sampleEnv).2.2 ["edge", "a.png"] [] [7, 60] 5 27 13 0 0 [] []
     _ _ (by decide) rfl rfl⟩

end Edge
